import Mathlib

/-!
Shallow embedding of the appointment scheduling engine of the psiquitra-app
repository, for checking the natural-language specification against the code.

Sources embedded here:
* `src/backend/src/models/Appointment.ts` — `AppointmentModel.create`,
  `validateAppointmentData`, `update`, `updateStatus`, `getAvailability`,
  and the SQL conflict predicates those methods issue;
* `src/unnamed/part_009` (database schema) — the CHECK constraint on
  `duration_minutes`, the primary key on `id`, and the two partial
  `EXCLUDE USING gist` constraints `unique_patient_time_slot` /
  `unique_psychiatrist_time_slot` over
  `tstzrange(appointment_date+start_time, appointment_date+end_time)`,
  which PostgreSQL re-checks on every INSERT/UPDATE of a row whose status
  is not `cancelled`/`no_show`.

Modelling conventions:
* times of day are minutes since midnight (the code compares `HH:mm`
  strings / TIME values, which order exactly like their minute values;
  `parseTime`/`minutesToTime`/`timeToMinutes` become the identity);
* calendar days are day indices; the instant `parseISO(date)` (midnight
  of `date`) is `1440 * date`; "now" is a minute count on the same scale;
* `format(addMinutes(t, n), `HH:mm`)` becomes `(t + n) % 1440` (date-fns
  wraps the rendered time-of-day across midnight);
* opaque payload fields of a row (`type`, `notes`, audit timestamps) are
  dropped: no claim mentions them and no embedded code path reads them;
* a fallible operation returns `Except`, the thrown `Error` messages
  becoming named error values;
* the database write is modelled by its success condition: an
  INSERT/UPDATE succeeds exactly when the written row satisfies the
  constraints of the table (primary key, CHECK on duration, range validity and
  the two exclusion constraints for rows the partial index covers).
-/

namespace Psiquitra

/-- The `status` column enum of the `appointments` table
(`part_009`, CHECK constraint on `status`). -/
inductive Status where
  | scheduled
  | confirmed
  | in_progress
  | completed
  | cancelled
  | no_show
deriving DecidableEq, Repr

/-- A row of the `appointments` table (schema in `part_009`), with times on
the minute scale and opaque payload columns (`type`, `notes`, timestamps)
omitted. -/
structure Appt where
  id : Nat
  patient_id : Nat
  psychiatrist_id : Nat
  appointment_date : Nat
  start_time : Nat
  end_time : Nat
  duration_minutes : Nat
  status : Status
deriving DecidableEq, Repr

/-- The SQL filter `status NOT IN (`cancelled`, `no_show`)` used by every
conflict query and by both exclusion constraints. -/
def isActive (s : Status) : Prop := s ≠ Status.cancelled ∧ s ≠ Status.no_show

instance (s : Status) : Decidable (isActive s) := by
  unfold isActive
  infer_instance

/-- The half-open interval overlap predicate of the spec (§4.1):
`overlaps(startA, endA, startB, endB) = startA < endB AND startB < endA`. -/
def overlaps (startA endA startB endB : Nat) : Prop :=
  startA < endB ∧ startB < endA

instance (a b c d : Nat) : Decidable (overlaps a b c d) := by
  unfold overlaps
  infer_instance

/-- The three-disjunct overlap condition of the SQL conflict queries in
`Appointment.ts` (`validateAppointmentData` lines 104-150 and `update`
lines 452-463), with `$3` = the new start and `$4` = the new end:
`(start_time <= $3 AND end_time > $3) OR (start_time < $4 AND end_time >= $4)
OR (start_time >= $3 AND end_time <= $4)`. -/
def sqlOverlap (rowStart rowEnd newStart newEnd : Nat) : Prop :=
  (rowStart ≤ newStart ∧ rowEnd > newStart) ∨
  (rowStart < newEnd ∧ rowEnd ≥ newEnd) ∨
  (rowStart ≥ newStart ∧ rowEnd ≤ newEnd)

instance (a b c d : Nat) : Decidable (sqlOverlap a b c d) := by
  unfold sqlOverlap
  infer_instance

/-- The slot-conflict test of `getAvailability` (`Appointment.ts` line 375):
`start < apptEnd && (start + durationMinutes) > apptStart`. -/
def availConflictWith (slotStart durationMinutes apptStart apptEnd : Nat) : Prop :=
  slotStart < apptEnd ∧ slotStart + durationMinutes > apptStart

instance (a b c d : Nat) : Decidable (availConflictWith a b c d) := by
  unfold availConflictWith
  infer_instance

/-- PostgreSQL `&&` on two `tstzrange` values built from the same
`appointment_date`: both ranges nonempty (a `tstzrange` with equal bounds
is empty and overlaps nothing) and the half-open intervals intersect. -/
def rangeOverlap (s1 e1 s2 e2 : Nat) : Prop :=
  s1 < e1 ∧ s2 < e2 ∧ s1 < e2 ∧ s2 < e1

instance (a b c d : Nat) : Decidable (rangeOverlap a b c d) := by
  unfold rangeOverlap
  infer_instance

/-- The table CHECK constraint
`duration_minutes >= 15 AND duration_minutes <= 480` (`part_009`). -/
def durationCheckOk (a : Appt) : Prop :=
  15 ≤ a.duration_minutes ∧ a.duration_minutes ≤ 480

instance (a : Appt) : Decidable (durationCheckOk a) := by
  unfold durationCheckOk
  infer_instance

/-- A hit of the `unique_patient_time_slot` exclusion constraint between an
existing row `o` and a written row `r`: both rows are covered by the
partial index (`status NOT IN (`cancelled`,`no_show`)`), agree on
`patient_id` and `appointment_date`, and their day ranges overlap. -/
def exclPatientHit (o r : Appt) : Prop :=
  isActive o.status ∧ isActive r.status ∧
  o.patient_id = r.patient_id ∧ o.appointment_date = r.appointment_date ∧
  rangeOverlap o.start_time o.end_time r.start_time r.end_time

instance (o r : Appt) : Decidable (exclPatientHit o r) := by
  unfold exclPatientHit
  infer_instance

/-- A hit of the `unique_psychiatrist_time_slot` exclusion constraint,
keyed on `psychiatrist_id` instead of `patient_id`. -/
def exclPsychiatristHit (o r : Appt) : Prop :=
  isActive o.status ∧ isActive r.status ∧
  o.psychiatrist_id = r.psychiatrist_id ∧ o.appointment_date = r.appointment_date ∧
  rangeOverlap o.start_time o.end_time r.start_time r.end_time

instance (o r : Appt) : Decidable (exclPsychiatristHit o r) := by
  unfold exclPsychiatristHit
  infer_instance

/-- Success condition of `INSERT INTO appointments` for row `r` against
table `tbl`: fresh primary key, the duration CHECK, a valid `tstzrange`
for rows the partial exclusion index covers (PostgreSQL raises an error
when the lower bound of the range exceeds its upper bound), and no hit of
either exclusion constraint. -/
def insertOk (tbl : List Appt) (r : Appt) : Prop :=
  (∀ o ∈ tbl, o.id ≠ r.id) ∧
  durationCheckOk r ∧
  (isActive r.status → r.start_time ≤ r.end_time) ∧
  (∀ o ∈ tbl, ¬ exclPatientHit o r ∧ ¬ exclPsychiatristHit o r)

instance (tbl : List Appt) (r : Appt) : Decidable (insertOk tbl r) := by
  unfold insertOk
  infer_instance

/-- Success condition of `UPDATE appointments` rewriting one row to `r`:
the new row version satisfies the CHECK and range-validity conditions and
triggers no exclusion-constraint hit against the other rows (`others`).
The primary key is unchanged by every UPDATE the code issues. -/
def updateRowOk (others : List Appt) (r : Appt) : Prop :=
  durationCheckOk r ∧
  (isActive r.status → r.start_time ≤ r.end_time) ∧
  (∀ o ∈ others, ¬ exclPatientHit o r ∧ ¬ exclPsychiatristHit o r)

instance (others : List Appt) (r : Appt) : Decidable (updateRowOk others r) := by
  unfold updateRowOk
  infer_instance

/-- The distinct `throw new Error(...)` outcomes of
`AppointmentModel.validateAppointmentData` (`Appointment.ts` lines 63-159),
in source order. -/
inductive VError where
  | pastDate
  | outsideWorkingHours
  | durationTooShort
  | durationTooLong
  | patientMissing
  | patientConflict
  | psychiatristConflict
  | insufficientLeadTime
deriving DecidableEq, Repr

/-- `AppointmentModel.validateAppointmentData` (`Appointment.ts` 63-159).
Checks run in source order, first failure wins:
1. `isBefore(parseISO(appointment_date), new Date())` — note the compared
   instant is midnight of the date, `1440 * appointment_date`;
2. working hours on the start time only: reject when
   `start_time < 08:00` or `start_time > 20:00`;
3. `duration_minutes < 15`; 4. `duration_minutes > 480`;
5. patient exists and is active (`activePatients` is the id set of active
   patients);
6. patient-scope conflict query; 7. psychiatrist-scope conflict query,
   both against `end_time = format(addMinutes(start, duration), `HH:mm`)`;
8. lead time: `(midnight of date - now)` under one hour.
Returns `none` when every check passes. -/
def validateAppointmentData (tbl : List Appt) (activePatients : List Nat)
    (now : Nat) (patient_id psychiatrist_id appointment_date start_time
    duration_minutes : Nat) : Option VError :=
  if 1440 * appointment_date < now then some VError.pastDate
  else if start_time < 480 ∨ 1200 < start_time then some VError.outsideWorkingHours
  else if duration_minutes < 15 then some VError.durationTooShort
  else if 480 < duration_minutes then some VError.durationTooLong
  else if patient_id ∉ activePatients then some VError.patientMissing
  else if ∃ o ∈ tbl, o.patient_id = patient_id ∧
      o.appointment_date = appointment_date ∧ isActive o.status ∧
      sqlOverlap o.start_time o.end_time start_time
        ((start_time + duration_minutes) % 1440) then
    some VError.patientConflict
  else if ∃ o ∈ tbl, o.psychiatrist_id = psychiatrist_id ∧
      o.appointment_date = appointment_date ∧ isActive o.status ∧
      sqlOverlap o.start_time o.end_time start_time
        ((start_time + duration_minutes) % 1440) then
    some VError.psychiatristConflict
  else if (1440 * appointment_date : Int) - now < 60 then
    some VError.insufficientLeadTime
  else none

/-- Failure outcomes of `AppointmentModel.create`: a validation error
thrown by `validateAppointmentData`, or the INSERT rejected by a table
constraint (surfaced by the route as a generic 500, not as a conflict). -/
inductive CreateErr where
  | validation (e : VError)
  | storeConstraint
deriving DecidableEq, Repr

/-- `AppointmentModel.create` (`Appointment.ts` 10-58): run
`validateAppointmentData`, compute
`end_time = format(addMinutes(start, duration), `HH:mm`)`, INSERT the row
with status `scheduled`.  `newId` stands for the generated `uuidv4()`. -/
def create (tbl : List Appt) (activePatients : List Nat) (now newId
    patient_id psychiatrist_id appointment_date start_time
    duration_minutes : Nat) : Except CreateErr (List Appt) :=
  match validateAppointmentData tbl activePatients now patient_id
      psychiatrist_id appointment_date start_time duration_minutes with
  | some e => Except.error (CreateErr.validation e)
  | none =>
    let r : Appt :=
      { id := newId, patient_id := patient_id,
        psychiatrist_id := psychiatrist_id,
        appointment_date := appointment_date, start_time := start_time,
        end_time := (start_time + duration_minutes) % 1440,
        duration_minutes := duration_minutes, status := Status.scheduled }
    if insertOk tbl r then Except.ok (r :: tbl)
    else Except.error CreateErr.storeConstraint

/-- Failure outcomes of `AppointmentModel.update` (`Appointment.ts`
406-492): `No hay campos validos para actualizar`,
`Cita no encontrada`, `Conflicto de horario con otra cita`, the UPDATE
matching no row because `psychiatrist_id` differs (the method returns
`null`), or the UPDATE rejected by a table constraint. -/
inductive UpdateErr where
  | noValidFields
  | notFound
  | scheduleConflict
  | notOwner
  | storeConstraint
deriving DecidableEq, Repr

/-- `AppointmentModel.update` restricted to its temporal fields
(`appointment_date`, `start_time`, `duration_minutes`) — the reschedule
path of `Appointment.ts` 406-492.  Absent fields keep the stored value
(the `updates.x || appointment.x` fallback in the code).  The method recomputes
`end_time`, runs one conflict query — psychiatrist scope only, excluding
the id of the row itself — and then issues
`UPDATE ... WHERE id = $n AND psychiatrist_id = $n+1`.  It never reads the
current status and never calls `validateAppointmentData`. -/
def update (tbl : List Appt) (id : Nat) (new_date new_start new_duration :
    Option Nat) (psychiatristId : Nat) : Except UpdateErr (List Appt) :=
  if new_date = none ∧ new_start = none ∧ new_duration = none then
    Except.error UpdateErr.noValidFields
  else
    match tbl.find? (fun a => a.id == id) with
    | none => Except.error UpdateErr.notFound
    | some appt =>
      let newDate := new_date.getD appt.appointment_date
      let newStart := new_start.getD appt.start_time
      let newDur := new_duration.getD appt.duration_minutes
      let newEnd := (newStart + newDur) % 1440
      if ∃ o ∈ tbl, o.id ≠ id ∧ o.psychiatrist_id = psychiatristId ∧
          o.appointment_date = newDate ∧ isActive o.status ∧
          sqlOverlap o.start_time o.end_time newStart newEnd then
        Except.error UpdateErr.scheduleConflict
      else if appt.psychiatrist_id ≠ psychiatristId then
        Except.error UpdateErr.notOwner
      else
        let r : Appt :=
          { appt with
            appointment_date := newDate
            start_time := newStart
            end_time := newEnd
            duration_minutes := newDur }
        if updateRowOk (tbl.filter (fun o => o.id != id)) r then
          Except.ok (tbl.map (fun o => if o.id = id then r else o))
        else Except.error UpdateErr.storeConstraint

/-- Failure outcomes of `AppointmentModel.updateStatus`: the UPDATE matched
no row (`null`), or the UPDATE was rejected by a table constraint. -/
inductive StatusErr where
  | notFound
  | storeConstraint
deriving DecidableEq, Repr

/-- `AppointmentModel.updateStatus` (`Appointment.ts` 497-511):
`UPDATE appointments SET status = $1 WHERE id = $2 AND psychiatrist_id = $3
RETURNING *`.  The route (`index.ts`, PUT `/:id/status`) only checks that
the requested status is one of the six enum values, which every `Status`
is; no lifecycle condition appears anywhere on this path. -/
def updateStatus (tbl : List Appt) (id : Nat) (status : Status)
    (psychiatristId : Nat) : Except StatusErr (List Appt) :=
  match tbl.find? (fun a => a.id == id && a.psychiatrist_id == psychiatristId) with
  | none => Except.error StatusErr.notFound
  | some appt =>
    let r : Appt := { appt with status := status }
    if updateRowOk (tbl.filter (fun o => o.id != id)) r then
      Except.ok (tbl.map (fun o => if o.id = id then r else o))
    else Except.error StatusErr.storeConstraint

/-- `AppointmentModel.getAvailability` (`Appointment.ts` 340-384).
Working window 8:00-20:00 (minutes 480-1200), slot granularity 30.  The
source loop `for (start = workStart; start <= workEnd - durationMinutes;
start += slotDuration)` visits exactly the candidates `480 + 30 * k`,
k = 0..24, that satisfy `start + durationMinutes <= 1200` (when
`workEnd - durationMinutes` is negative the loop body never runs); each
candidate is kept when no active appointment of the psychiatrist on the
date satisfies the line-375 conflict test. -/
def getAvailability (tbl : List Appt) (date psychiatristId
    durationMinutes : Nat) : List Nat :=
  let existingAppointments := tbl.filter (fun a =>
    decide (a.appointment_date = date) &&
    decide (a.psychiatrist_id = psychiatristId) && decide (isActive a.status))
  ((List.range 25).map (fun k => 480 + 30 * k)).filter (fun start =>
    decide (start + durationMinutes ≤ 1200) &&
    !(existingAppointments.any (fun a =>
      decide (availConflictWith start durationMinutes a.start_time a.end_time))))

/-- One request against the engine, carrying the per-request environment
(the clock reading and active-patient set seen by `create`, and the fresh
uuid). -/
inductive Op where
  | createOp (activePatients : List Nat) (now newId patient_id
      psychiatrist_id appointment_date start_time duration_minutes : Nat)
  | rescheduleOp (id : Nat) (new_date new_start new_duration : Option Nat)
      (psychiatrist_id : Nat)
  | setStatusOp (id : Nat) (status : Status) (psychiatrist_id : Nat)

/-- Apply one operation; `none` when the operation fails (for any reason). -/
def applyOp (tbl : List Appt) : Op → Option (List Appt)
  | Op.createOp pats now newId pid psy d s dur =>
    (create tbl pats now newId pid psy d s dur).toOption
  | Op.rescheduleOp id d s dur psy => (update tbl id d s dur psy).toOption
  | Op.setStatusOp id st psy => (updateStatus tbl id st psy).toOption

/-- Run a sequence of operations; a failed operation leaves the table
unchanged (the thrown error aborts only its own request). -/
def exec (tbl : List Appt) : List Op → List Appt
  | [] => tbl
  | op :: ops => exec ((applyOp tbl op).getD tbl) ops

/-- One `createAppointment` request in flight: its inputs, as seen by
`AppointmentModel.create`. -/
structure CreateReq where
  activePatients : List Nat
  now : Nat
  newId : Nat
  patient_id : Nat
  psychiatrist_id : Nat
  appointment_date : Nat
  start_time : Nat
  duration_minutes : Nat

/-- The row a request INSERTs (`Appointment.ts` 29-54): computed end time,
status `scheduled`. -/
def reqRow (r : CreateReq) : Appt :=
  { id := r.newId
    patient_id := r.patient_id
    psychiatrist_id := r.psychiatrist_id
    appointment_date := r.appointment_date
    start_time := r.start_time
    end_time := (r.start_time + r.duration_minutes) % 1440
    duration_minutes := r.duration_minutes
    status := Status.scheduled }

/-- Progress of one in-flight `create` call.  The call is two separate
database interactions — the validation SELECTs, then the INSERT — with no
surrounding transaction, so another request may commit in between. -/
inductive ReqPhase where
  | pending
  | validated
  | ok
  | appError (e : VError)
  | storeError
deriving DecidableEq, Repr

/-- Advance one in-flight request by one database interaction against the
current table: `pending` runs `validateAppointmentData` on a snapshot of
the table; `validated` attempts the INSERT, which the store accepts or
rejects atomically against the table as it stands at that moment.
Finished requests do not move. -/
def raceStep (r : CreateReq) (tbl : List Appt) :
    ReqPhase → List Appt × ReqPhase
  | ReqPhase.pending =>
    match validateAppointmentData tbl r.activePatients r.now r.patient_id
        r.psychiatrist_id r.appointment_date r.start_time
        r.duration_minutes with
    | some e => (tbl, ReqPhase.appError e)
    | none => (tbl, ReqPhase.validated)
  | ReqPhase.validated =>
    if insertOk tbl (reqRow r) then (reqRow r :: tbl, ReqPhase.ok)
    else (tbl, ReqPhase.storeError)
  | p => (tbl, p)

/-- Run two concurrent `create` calls under a schedule: `true` advances
request 1, `false` advances request 2. -/
def raceExec (r1 r2 : CreateReq) :
    List Bool → List Appt × ReqPhase × ReqPhase →
    List Appt × ReqPhase × ReqPhase
  | [], s => s
  | b :: rest, (tbl, p1, p2) =>
    if b then
      let s1 := raceStep r1 tbl p1
      raceExec r1 r2 rest (s1.1, s1.2, p2)
    else
      let s2 := raceStep r2 tbl p2
      raceExec r1 r2 rest (s2.1, p1, s2.2)

/-- Two concurrent `create` calls starting from an empty schedule. -/
def raceRun (r1 r2 : CreateReq) (sched : List Bool) :
    List Appt × ReqPhase × ReqPhase :=
  raceExec r1 r2 sched ([], ReqPhase.pending, ReqPhase.pending)

/-- The per-pair scheduling invariant of the spec: two surviving
(non-cancelled, non-no-show) appointments on the same date never overlap
in `[start_time, end_time)` when they share the patient or share the
psychiatrist. -/
def noOverlapPair (a b : Appt) : Prop :=
  (isActive a.status ∧ isActive b.status ∧
      a.appointment_date = b.appointment_date) →
    ((a.patient_id = b.patient_id →
        ¬ overlaps a.start_time a.end_time b.start_time b.end_time) ∧
     (a.psychiatrist_id = b.psychiatrist_id →
        ¬ overlaps a.start_time a.end_time b.start_time b.end_time))

/-- Facts every stored row satisfies in any state the embedded operations
can reach: the duration CHECK, the code-computed `end_time`, and — for
rows the partial exclusion index covers — a valid range. -/
def RowWf (a : Appt) : Prop :=
  15 ≤ a.duration_minutes ∧ a.duration_minutes ≤ 480 ∧
  a.end_time = (a.start_time + a.duration_minutes) % 1440 ∧
  (isActive a.status → a.start_time ≤ a.end_time)

/-- Well-formedness of a reachable table: every row is well formed, primary
keys are distinct, and the scheduling invariant holds pairwise. -/
def StoreWf (tbl : List Appt) : Prop :=
  (∀ a ∈ tbl, RowWf a) ∧
  tbl.Pairwise (fun a b => a.id ≠ b.id ∧ noOverlapPair a b)

/-- Invariant of the two-request race: a finished-successfully request has
its row in the table, and the two requests never both finish successfully. -/
def RaceInv (r1 r2 : CreateReq) (s : List Appt × ReqPhase × ReqPhase) :
    Prop :=
  (s.2.1 = ReqPhase.ok → reqRow r1 ∈ s.1) ∧
  (s.2.2 = ReqPhase.ok → reqRow r2 ∈ s.1) ∧
  ¬ (s.2.1 = ReqPhase.ok ∧ s.2.2 = ReqPhase.ok)

/-- Concrete row for counterexamples: a `completed` appointment of
patient 5 with psychiatrist 7 on day 100, 10:00-11:00. -/
def exCompleted : Appt :=
  { id := 1
    patient_id := 5
    psychiatrist_id := 7
    appointment_date := 100
    start_time := 600
    end_time := 660
    duration_minutes := 60
    status := Status.completed }

/-- Concrete row: patient 5 with psychiatrist 7 on day 100, 10:00-11:00,
`scheduled`. -/
def exP1 : Appt :=
  { id := 1
    patient_id := 5
    psychiatrist_id := 7
    appointment_date := 100
    start_time := 600
    end_time := 660
    duration_minutes := 60
    status := Status.scheduled }

/-- Concrete row: the same patient 5 with a different psychiatrist 8 on
day 100, 11:40-12:10, `scheduled`. -/
def exP2 : Appt :=
  { id := 2
    patient_id := 5
    psychiatrist_id := 8
    appointment_date := 100
    start_time := 700
    end_time := 730
    duration_minutes := 30
    status := Status.scheduled }

/-- Concrete racing request 1: patient 5, psychiatrist 7, day 10,
10:00-11:00. -/
def exReq1 : CreateReq :=
  { activePatients := [5, 6]
    now := 0
    newId := 101
    patient_id := 5
    psychiatrist_id := 7
    appointment_date := 10
    start_time := 600
    duration_minutes := 60 }

/-- Concrete racing request 2: patient 6, the same psychiatrist 7, day 10,
10:30-11:00 — fully inside the interval of request 1. -/
def exReq2 : CreateReq :=
  { activePatients := [5, 6]
    now := 0
    newId := 102
    patient_id := 6
    psychiatrist_id := 7
    appointment_date := 10
    start_time := 630
    duration_minutes := 30 }

deriving instance DecidableEq for Except

/-! ### Helper lemmas -/

/-- The computed `end_time` of a row never equals its `start_time`, because
`duration_minutes` lies in `[15, 480]`. -/
theorem end_time_ne_start (s dur : Nat) (h1 : 15 ≤ dur) (h2 : dur ≤ 480) :
    (s + dur) % 1440 ≠ s := by
  omega

/-- An exclusion-indexed well-formed row occupies a nonempty interval. -/
theorem active_start_lt_end (a : Appt) (hwf : RowWf a)
    (ha : isActive a.status) : a.start_time < a.end_time := by
  obtain ⟨h1, h2, h3, h4⟩ := hwf
  have h5 := h4 ha
  have h6 : a.end_time ≠ a.start_time := h3 ▸ end_time_ne_start _ _ h1 h2
  omega

/-- The scheduling-invariant pair relation is symmetric. -/
theorem noOverlapPair_symm {a b : Appt} (h : noOverlapPair a b) :
    noOverlapPair b a := by
  intro ⟨hb, ha, hd⟩
  obtain ⟨h1, h2⟩ := h ⟨ha, hb, hd.symm⟩
  constructor
  · intro hp hov
    exact h1 hp.symm ⟨hov.2, hov.1⟩
  · intro hp hov
    exact h2 hp.symm ⟨hov.2, hov.1⟩

/-- If neither exclusion constraint fires between two well-formed rows,
the scheduling invariant holds for the pair. -/
theorem pair_of_miss (o r : Appt) (hwo : RowWf o) (hwr : RowWf r)
    (hp : ¬ exclPatientHit o r) (hq : ¬ exclPsychiatristHit o r) :
    noOverlapPair o r := by
  intro ⟨hao, har, hd⟩
  have hso : o.start_time < o.end_time := active_start_lt_end o hwo hao
  have hsr : r.start_time < r.end_time := active_start_lt_end r hwr har
  constructor
  · intro hpid hov
    exact hp ⟨hao, har, hpid, hd, hso, hsr, hov.1, hov.2⟩
  · intro hpid hov
    exact hq ⟨hao, har, hpid, hd, hso, hsr, hov.1, hov.2⟩

/-! ### C4 — the two overlap tests are the half-open predicate -/

/-- C4: on the minute scale, for nonempty intervals, the three-disjunct SQL
conflict condition of the create/reschedule queries and the slot-conflict
test of `getAvailability` are both equivalent to the half-open predicate
`overlaps(startA, endA, startB, endB) = startA < endB AND startB < endA`;
consequently a booking that ends exactly when the other starts (or starts
exactly when the other ends) is never reported as a conflict by either
test. -/
theorem conflict_tests_are_halfOpen (s e a b : Nat) (hrow : s < e)
    (hnew : a < b) :
    (sqlOverlap s e a b ↔ overlaps a b s e) ∧
    (availConflictWith a (b - a) s e ↔ overlaps a b s e) ∧
    ((b = s ∨ e = a) →
      ¬ sqlOverlap s e a b ∧ ¬ availConflictWith a (b - a) s e) := by
  simp only [sqlOverlap, overlaps, availConflictWith]
  omega

/-- Witness for C4, spec scenario 3: an existing 10:00-11:00 booking and a
candidate 11:00-11:30 booking touch at the boundary and do not conflict
under either test. -/
theorem conflict_tests_are_halfOpen_witness :
    600 < 660 ∧ 660 < 690 ∧
    ¬ sqlOverlap 600 660 660 690 ∧ ¬ availConflictWith 660 30 600 660 := by
  refine ⟨by norm_num, by norm_num, ?_⟩
  have h := (conflict_tests_are_halfOpen 600 660 660 690 (by norm_num)
    (by norm_num)).2.2 (Or.inr rfl)
  exact h

/-! ### C6 — past-date and lead-time are computed from midnight, not from
`date + startTime` -/

/-- C6 (code bug): both clock checks of `validateAppointmentData` compare
"now" against midnight of the appointment date (`parseISO(appointment_date)`),
not against `date + startTime`.  First conjunct: at noon of day 100
(minute 144720), a booking for day 100 at 15:00 (whose start instant
144900 is in the future) is rejected as a past date.  Second conjunct: at
23:30 of day 99 (minute 143970), a booking for day 100 at 08:00 (whose
start instant 144480 is 510 minutes away) is rejected for insufficient
lead time. -/
theorem clock_checks_use_midnight :
    (validateAppointmentData [] [5] 144720 5 7 100 900 60 =
        some VError.pastDate ∧ 144720 < 1440 * 100 + 900) ∧
    (validateAppointmentData [] [5] 143970 5 7 100 480 60 =
        some VError.insufficientLeadTime ∧ 60 ≤ 1440 * 100 + 480 - 143970) := by
  refine ⟨⟨?_, by norm_num⟩, ⟨?_, by norm_num⟩⟩ <;> decide

/-! ### C7 — the working-hours check constrains only the start time -/

/-- C7 counterexample: a candidate starting 19:30 with duration 120 ends at
21:30, outside the 08:00-20:00 window, yet passes the whole validation
(the claim says the working-hours check passes only when
`startTime + durationMinutes ≤ 20:00`). -/
theorem workingHours_ignores_end_cex :
    validateAppointmentData [] [5] 0 5 7 10 1170 120 = none ∧
    1200 < 1170 + 120 := by
  exact ⟨by decide, by norm_num⟩

/-- C7 (amended): the working-hours check of `validateAppointmentData`
constrains only `start_time` — it reports `outsideWorkingHours` exactly
when the past-date check passed and `start_time` lies outside
`[08:00, 20:00]`, regardless of the computed end; and an interval that
crosses midnight (wrapped `end_time` below `start_time`) is not rejected
by the validator but by the store, whose range constraint makes the
INSERT fail, so `create` never succeeds on it. -/
theorem workingHours_start_only (tbl : List Appt) (pats : List Nat)
    (now pid psy d s dur : Nat) :
    (validateAppointmentData tbl pats now pid psy d s dur =
        some VError.outsideWorkingHours ↔
      ¬ (1440 * d < now) ∧ (s < 480 ∨ 1200 < s)) ∧
    ((s + dur) % 1440 < s → ∀ newId,
      (create tbl pats now newId pid psy d s dur).isOk = false) := by
  constructor
  · simp only [validateAppointmentData]
    split_ifs <;> simp_all
  · intro hwrap newId
    simp only [create]
    cases hv : validateAppointmentData tbl pats now pid psy d s dur with
    | some e => rfl
    | none =>
      simp only []
      rw [if_neg]
      · rfl
      · intro hok
        have hrange := hok.2.2.1 (by exact ⟨by simp [isActive], by simp [isActive]⟩)
        simp only [] at hrange
        omega

/-- Witness for C7: a candidate starting 18:20 with duration 400 wraps past
midnight (end renders as 01:00); validation passes but `create` fails. -/
theorem workingHours_start_only_witness :
    (1100 + 400) % 1440 < 1100 ∧
    (create [] [5] 0 9 5 7 10 1100 400).isOk = false := by
  refine ⟨by norm_num, ?_⟩
  exact (workingHours_start_only [] [5] 0 5 7 10 1100 400).2 (by norm_num) 9

/-! ### C8 — the actual order of the validation checks -/

/-- C8 counterexample: a candidate with duration 5 minutes starting at
05:00 (outside working hours) fails with the working-hours error, not the
duration error — the duration bounds are NOT checked first. -/
theorem check_order_cex :
    validateAppointmentData [] [5] 0 5 7 10 300 5 =
      some VError.outsideWorkingHours ∧
    VError.outsideWorkingHours ≠ VError.durationTooShort := by
  exact ⟨by decide, by decide⟩

/-- C8 (amended): `validateAppointmentData` fails fast with the first
violated rule, but in the source order past-date, working-hours,
duration-minimum, duration-maximum, patient-existence, patient-conflict,
psychiatrist-conflict, lead-time — not in the order claimed (duration
bounds first).  Each possible outcome is characterized exactly. -/
theorem validate_check_order (tbl : List Appt) (pats : List Nat)
    (now pid psy d s dur : Nat) :
    (validateAppointmentData tbl pats now pid psy d s dur =
        some VError.pastDate ↔ 1440 * d < now) ∧
    (validateAppointmentData tbl pats now pid psy d s dur =
        some VError.outsideWorkingHours ↔
      ¬ (1440 * d < now) ∧ (s < 480 ∨ 1200 < s)) ∧
    (validateAppointmentData tbl pats now pid psy d s dur =
        some VError.durationTooShort ↔
      ¬ (1440 * d < now) ∧ ¬ (s < 480 ∨ 1200 < s) ∧ dur < 15) ∧
    (validateAppointmentData tbl pats now pid psy d s dur =
        some VError.durationTooLong ↔
      ¬ (1440 * d < now) ∧ ¬ (s < 480 ∨ 1200 < s) ∧ ¬ (dur < 15) ∧
      480 < dur) ∧
    (validateAppointmentData tbl pats now pid psy d s dur =
        some VError.patientMissing ↔
      ¬ (1440 * d < now) ∧ ¬ (s < 480 ∨ 1200 < s) ∧ ¬ (dur < 15) ∧
      ¬ (480 < dur) ∧ pid ∉ pats) ∧
    (validateAppointmentData tbl pats now pid psy d s dur =
        some VError.patientConflict ↔
      ¬ (1440 * d < now) ∧ ¬ (s < 480 ∨ 1200 < s) ∧ ¬ (dur < 15) ∧
      ¬ (480 < dur) ∧ ¬ (pid ∉ pats) ∧
      (∃ o ∈ tbl, o.patient_id = pid ∧ o.appointment_date = d ∧
        isActive o.status ∧
        sqlOverlap o.start_time o.end_time s ((s + dur) % 1440))) ∧
    (validateAppointmentData tbl pats now pid psy d s dur =
        some VError.psychiatristConflict ↔
      ¬ (1440 * d < now) ∧ ¬ (s < 480 ∨ 1200 < s) ∧ ¬ (dur < 15) ∧
      ¬ (480 < dur) ∧ ¬ (pid ∉ pats) ∧
      ¬ (∃ o ∈ tbl, o.patient_id = pid ∧ o.appointment_date = d ∧
        isActive o.status ∧
        sqlOverlap o.start_time o.end_time s ((s + dur) % 1440)) ∧
      (∃ o ∈ tbl, o.psychiatrist_id = psy ∧ o.appointment_date = d ∧
        isActive o.status ∧
        sqlOverlap o.start_time o.end_time s ((s + dur) % 1440))) ∧
    (validateAppointmentData tbl pats now pid psy d s dur =
        some VError.insufficientLeadTime ↔
      ¬ (1440 * d < now) ∧ ¬ (s < 480 ∨ 1200 < s) ∧ ¬ (dur < 15) ∧
      ¬ (480 < dur) ∧ ¬ (pid ∉ pats) ∧
      ¬ (∃ o ∈ tbl, o.patient_id = pid ∧ o.appointment_date = d ∧
        isActive o.status ∧
        sqlOverlap o.start_time o.end_time s ((s + dur) % 1440)) ∧
      ¬ (∃ o ∈ tbl, o.psychiatrist_id = psy ∧ o.appointment_date = d ∧
        isActive o.status ∧
        sqlOverlap o.start_time o.end_time s ((s + dur) % 1440)) ∧
      (1440 * d : Int) - now < 60) := by
  simp only [validateAppointmentData]
  split_ifs <;> simp_all

/-- Witness for C8: with "now" at minute 10 of day 0, a booking for day 0
fails the first check, past-date. -/
theorem validate_check_order_witness :
    validateAppointmentData [] [] 10 0 0 0 0 0 = some VError.pastDate :=
  (validate_check_order [] [] 10 0 0 0 0 0).1.mpr (by norm_num)

/-! ### C2 — `updateStatus` has no lifecycle check -/

/-- C2 counterexample: requesting the status an appointment already has —
`completed`, a terminal status, on a `completed` appointment — succeeds;
the claim says every such request must fail with
`InvalidStatusTransition`.  No lifecycle error exists anywhere on the
`updateStatus` path. -/
theorem updateStatus_noop_cex :
    updateStatus [exCompleted] 1 Status.completed 7 =
      Except.ok [exCompleted] := by
  decide

/-- C2 (amended): `updateStatus` enforces no lifecycle at all.  For every
stored appointment and every requested status — including the status the
appointment already has and transitions out of terminal statuses — the
call succeeds whenever the row exists for that psychiatrist and the store
constraints accept the rewritten row (which is automatic when the row is
alone on its day); the only failures are a missing row or a store
constraint violation, never an `InvalidStatusTransition`. -/
theorem updateStatus_no_lifecycle_check (a : Appt) (st : Status)
    (h1 : 15 ≤ a.duration_minutes) (h2 : a.duration_minutes ≤ 480)
    (h3 : isActive st → a.start_time ≤ a.end_time) :
    updateStatus [a] a.id st a.psychiatrist_id =
      Except.ok [{ a with status := st }] := by
  have hfind : List.find?
      (fun x => x.id == a.id && x.psychiatrist_id == a.psychiatrist_id)
      [a] = some a := by
    simp
  have hfilter : List.filter (fun o => o.id != a.id) [a] = [] := by
    simp
  simp only [updateStatus, hfind, hfilter]
  rw [if_pos ⟨⟨h1, h2⟩, fun h => h3 h, fun o ho => absurd ho (by simp)⟩]
  simp

/-- Witness for C2: the terminal-exit transition `completed → scheduled`
on the concrete completed appointment succeeds. -/
theorem updateStatus_no_lifecycle_check_witness :
    (15 ≤ exCompleted.duration_minutes ∧
      exCompleted.duration_minutes ≤ 480) ∧
    updateStatus [exCompleted] exCompleted.id Status.scheduled
        exCompleted.psychiatrist_id =
      Except.ok [{ exCompleted with status := Status.scheduled }] :=
  ⟨⟨by decide, by decide⟩,
    updateStatus_no_lifecycle_check exCompleted Status.scheduled
      (by decide) (by decide) (by decide)⟩

/-! ### C3 — reschedule checks neither status nor booking rules, and only
the clinician scope at the application level -/

/-- C3 counterexample.  First conjunct: rescheduling a `completed`
appointment succeeds (the claim says it must fail with
`InvalidStatusTransition`).  Second conjunct: rescheduling patient 5 with
psychiatrist 8 onto a slot that overlaps the same patient with
psychiatrist 7 passes the application-level conflict check — which scans
only the psychiatrist scope — and fails only at the store constraint, not
with a patient-conflict error: the patient-scope check is not re-run. -/
theorem update_on_completed_cex :
    (update [exCompleted] 1 (some 101) (some 700) (some 30) 7 =
      Except.ok [{ exCompleted with appointment_date := 101, start_time := 700, end_time := 730, duration_minutes := 30 }]) ∧
    (update [exP1, exP2] 2 none (some 600) (some 30) 8 =
      Except.error UpdateErr.storeConstraint) := by
  exact ⟨by decide, by decide⟩

/-- C3 (amended): the reschedule path of `AppointmentModel.update` never
reads the current status and never re-runs `validateAppointmentData`: for
an appointment alone on its day, a reschedule to any date, start time and
CHECK-acceptable duration succeeds whatever the current status — even a
terminal one — and even when the new start time violates the booking
rules (for instance lying outside working hours); only the clinician-scope
SQL conflict query (excluding the id of the row itself) and the store
constraints guard the write. -/
theorem update_ignores_status_and_validator (a : Appt) (d s dur : Nat)
    (h1 : 15 ≤ dur) (h2 : dur ≤ 480) (h3 : s ≤ (s + dur) % 1440) :
    update [a] a.id (some d) (some s) (some dur) a.psychiatrist_id =
      Except.ok [{ a with appointment_date := d, start_time := s, end_time := (s + dur) % 1440, duration_minutes := dur }] := by
  have hfind : List.find? (fun x => x.id == a.id) [a] = some a := by
    simp
  have hfilter : List.filter (fun o => o.id != a.id) [a] = [] := by
    simp
  have hnoconf : ¬ ∃ o ∈ [a], o.id ≠ a.id ∧
      o.psychiatrist_id = a.psychiatrist_id ∧ o.appointment_date = d ∧
      isActive o.status ∧
      sqlOverlap o.start_time o.end_time s ((s + dur) % 1440) := by
    rintro ⟨o, ho, hne, -⟩
    simp only [List.mem_singleton] at ho
    exact hne (ho ▸ rfl)
  simp only [update, hfind, hfilter, Option.getD_some]
  rw [if_neg (by simp), if_neg hnoconf, if_neg (by simp),
    if_pos ⟨⟨h1, h2⟩, fun h => h3, fun o ho => absurd ho (by simp)⟩]
  simp

/-- Witness for C3: the concrete `completed` appointment is rescheduled to
05:00 — outside working hours — and the call succeeds. -/
theorem update_ignores_status_and_validator_witness :
    (15 ≤ 60 ∧ 60 ≤ 480 ∧ 300 ≤ (300 + 60) % 1440) ∧
    update [exCompleted] exCompleted.id (some 101) (some 300) (some 60)
        exCompleted.psychiatrist_id =
      Except.ok [{ exCompleted with appointment_date := 101, start_time := 300, end_time := (300 + 60) % 1440, duration_minutes := 60 }] :=
  ⟨⟨by norm_num, by norm_num, by norm_num⟩,
    update_ignores_status_and_validator exCompleted 101 300 60
      (by norm_num) (by norm_num) (by norm_num)⟩

/-! ### C5 / C10 — the availability computation -/

/-- Membership characterization of `getAvailability`: a start time is
returned exactly when it is a multiple of the 30-minute granularity from
the window start, fits before the window end, and its half-open interval
overlaps no active appointment of the psychiatrist on the date.  No clock
is involved. -/
theorem mem_getAvailability_iff (tbl : List Appt) (date psy dur t : Nat) :
    t ∈ getAvailability tbl date psy dur ↔
      ((∃ k, t = 480 + 30 * k) ∧ t + dur ≤ 1200 ∧
        ∀ a ∈ tbl, a.appointment_date = date → a.psychiatrist_id = psy →
          isActive a.status → ¬ overlaps t (t + dur) a.start_time a.end_time) := by
  unfold getAvailability
  simp only [List.mem_filter, List.mem_map, List.mem_range, Bool.and_eq_true,
    decide_eq_true_eq, Bool.not_eq_true', List.any_eq_false, List.mem_filter,
    availConflictWith, overlaps]
  constructor
  · rintro ⟨⟨k, hk, rfl⟩, hle, hconf⟩
    exact ⟨⟨k, rfl⟩, hle,
      fun a ha hd hp hact hov => hconf a ⟨ha, ⟨hd, hp⟩, hact⟩ ⟨hov.1, hov.2⟩⟩
  · rintro ⟨⟨k, rfl⟩, hle, hconf⟩
    refine ⟨⟨k, by omega, rfl⟩, hle, ?_⟩
    rintro a ⟨ha, ⟨hd, hp⟩, hact⟩ hov
    exact hconf a ha hd hp hact ⟨hov.1, hov.2⟩

/-- The candidate slots are enumerated in ascending order and filtering
preserves that order. -/
theorem getAvailability_sorted (tbl : List Appt) (date psy dur : Nat) :
    (getAvailability tbl date psy dur).Pairwise (· < ·) := by
  unfold getAvailability
  apply List.Pairwise.filter
  apply List.pairwise_map.mpr
  exact (List.pairwise_lt_range 25).imp (fun h => by omega)

/-- C5: `getAvailability` returns exactly the start times that are
multiples of the 30-minute slot granularity from the working-window start
(08:00), fit with their duration inside the window end (20:00), and whose
half-open interval overlaps no existing non-cancelled/non-no-show
appointment of the psychiatrist on the date; the result is strictly
ascending; and a duration exceeding the 720-minute window yields the
empty list rather than an error. -/
theorem getAvailability_correct (tbl : List Appt) (date psy dur : Nat) :
    (∀ t, t ∈ getAvailability tbl date psy dur ↔
      ((∃ k, t = 480 + 30 * k) ∧ t + dur ≤ 1200 ∧
        ∀ a ∈ tbl, a.appointment_date = date → a.psychiatrist_id = psy →
          isActive a.status →
            ¬ overlaps t (t + dur) a.start_time a.end_time)) ∧
    (getAvailability tbl date psy dur).Pairwise (· < ·) ∧
    (720 < dur → getAvailability tbl date psy dur = []) := by
  refine ⟨fun t => mem_getAvailability_iff tbl date psy dur t,
    getAvailability_sorted tbl date psy dur, ?_⟩
  intro hdur
  apply List.eq_nil_iff_forall_not_mem.mpr
  intro t ht
  obtain ⟨⟨k, hk⟩, hle, -⟩ :=
    (mem_getAvailability_iff tbl date psy dur t).mp ht
  omega

/-- Witness for C5: an 800-minute duration exceeds the window; the slot
list is empty. -/
theorem getAvailability_correct_witness :
    720 < 800 ∧ getAvailability [] 100 7 800 = [] :=
  ⟨by norm_num, (getAvailability_correct [] 100 7 800).2.2 (by norm_num)⟩

/-- C10: availability filters only by clinician-scope overlap inside the
working window — its membership condition mentions no clock — so on the
current day it can return slots that `create` would reject: concretely,
at noon of day 100 the slot 08:00 is returned for day 100, while
`validateAppointmentData` rejects a booking at that slot as a past date
(and would reject near-future slots for insufficient lead time). -/
theorem getAvailability_ignores_clock :
    (∀ (tbl : List Appt) (date psy dur t : Nat),
      t ∈ getAvailability tbl date psy dur ↔
        ((∃ k, t = 480 + 30 * k) ∧ t + dur ≤ 1200 ∧
          ∀ a ∈ tbl, a.appointment_date = date → a.psychiatrist_id = psy →
            isActive a.status →
              ¬ overlaps t (t + dur) a.start_time a.end_time)) ∧
    480 ∈ getAvailability [] 100 7 60 ∧
    validateAppointmentData [] [5] 144720 5 7 100 480 60 =
      some VError.pastDate := by
  exact ⟨mem_getAvailability_iff, by decide, by decide⟩

/-! ### C1 — the scheduling invariant is preserved by every reachable
state -/

/-- An INSERT the store accepts extends a well-formed table to a
well-formed table: exactly the content of the two exclusion constraints
plus the CHECK and primary-key constraints. -/
theorem insert_preserves (tbl : List Appt) (r : Appt) (hwf : StoreWf tbl)
    (hr : RowWf r) (hok : insertOk tbl r) : StoreWf (r :: tbl) := by
  obtain ⟨hrows, hpair⟩ := hwf
  obtain ⟨hpk, hdur, hrange, hmiss⟩ := hok
  refine ⟨?_, ?_⟩
  · intro a ha
    rcases List.mem_cons.mp ha with h | h
    · exact h ▸ hr
    · exact hrows a h
  · refine List.Pairwise.cons ?_ hpair
    intro o ho
    refine ⟨fun h => hpk o ho h.symm, ?_⟩
    exact noOverlapPair_symm
      (pair_of_miss o r (hrows o ho) hr (hmiss o ho).1 (hmiss o ho).2)

/-- An UPDATE the store accepts — rewriting the row with primary key `id`
to `r` — keeps the table well formed. -/
theorem replace_preserves (tbl : List Appt) (id : Nat) (r : Appt)
    (hwf : StoreWf tbl) (hrid : r.id = id) (hr : RowWf r)
    (hok : updateRowOk (tbl.filter (fun o => o.id != id)) r) :
    StoreWf (tbl.map (fun o => if o.id = id then r else o)) := by
  obtain ⟨hrows, hpair⟩ := hwf
  obtain ⟨hdur, hrange, hmiss⟩ := hok
  constructor
  · intro a ha
    rcases List.mem_map.mp ha with ⟨o, ho, hoe⟩
    by_cases h : o.id = id
    · rw [if_pos h] at hoe
      exact hoe ▸ hr
    · rw [if_neg h] at hoe
      exact hoe ▸ hrows o ho
  · apply List.pairwise_map.mpr
    refine List.Pairwise.imp_of_mem ?_ hpair
    intro a b ha hb hab
    obtain ⟨hne, hno⟩ := hab
    by_cases ha' : a.id = id <;> by_cases hb' : b.id = id
    · exact absurd (ha'.trans hb'.symm) hne
    · rw [if_pos ha', if_neg hb']
      have hbf : b ∈ tbl.filter (fun o => o.id != id) :=
        List.mem_filter.mpr ⟨hb, by simp [hb']⟩
      refine ⟨by rw [hrid]; exact fun h => hb' h.symm, ?_⟩
      exact noOverlapPair_symm
        (pair_of_miss b r (hrows b hb) hr (hmiss b hbf).1 (hmiss b hbf).2)
    · rw [if_neg ha', if_pos hb']
      have haf : a ∈ tbl.filter (fun o => o.id != id) :=
        List.mem_filter.mpr ⟨ha, by simp [ha']⟩
      refine ⟨by rw [hrid]; exact ha', ?_⟩
      exact pair_of_miss a r (hrows a ha) hr (hmiss a haf).1 (hmiss a haf).2
    · rw [if_neg ha', if_neg hb']
      exact ⟨hne, hno⟩

/-- Every single operation — create, reschedule, status change — maps a
well-formed table to a well-formed table, whether it succeeds or fails. -/
theorem applyOp_preserves (tbl : List Appt) (op : Op) (hwf : StoreWf tbl) :
    StoreWf ((applyOp tbl op).getD tbl) := by
  cases op with
  | createOp pats now newId pid psy d s dur =>
    simp only [applyOp, create]
    split
    · exact hwf
    · split
      · rename_i hok
        simp only [Except.toOption, Option.getD_some]
        exact insert_preserves tbl _ hwf
          ⟨hok.2.1.1, hok.2.1.2, rfl, hok.2.2.1⟩ hok
      · exact hwf
  | rescheduleOp id nd ns ndur psy =>
    simp only [applyOp, update]
    split
    · exact hwf
    · split
      · exact hwf
      · rename_i appt heq
        split
        · exact hwf
        · split
          · exact hwf
          · split
            · rename_i hnc hown hok
              have hid : appt.id = id := by
                have h := List.find?_some heq
                simpa using h
              simp only [Except.toOption, Option.getD_some]
              exact replace_preserves tbl id _ hwf hid
                ⟨hok.1.1, hok.1.2, rfl, hok.2.1⟩ hok
            · exact hwf
  | setStatusOp id st psy =>
    simp only [applyOp, updateStatus]
    split
    · exact hwf
    · rename_i appt heq
      split
      · rename_i hok
        have hid : appt.id = id := by
          have h := List.find?_some heq
          simp only [Bool.and_eq_true, beq_iff_eq] at h
          exact h.1
        have hwfa : RowWf appt := hwf.1 appt (List.mem_of_find?_eq_some heq)
        simp only [Except.toOption, Option.getD_some]
        exact replace_preserves tbl id _ hwf hid
          ⟨hok.1.1, hok.1.2, hwfa.2.2.1, hok.2.1⟩ hok
      · exact hwf

/-- Well-formedness is preserved along any operation sequence. -/
theorem exec_preserves (ops : List Op) (tbl : List Appt)
    (hwf : StoreWf tbl) : StoreWf (exec tbl ops) := by
  induction ops generalizing tbl with
  | nil => exact hwf
  | cons op ops ih => exact ih _ (applyOp_preserves tbl op hwf)

/-- C1: after any sequence of create, reschedule and status-change
operations (failed ones leaving the table unchanged — in particular after
any sequence in which all succeed), no two appointments whose status is
outside \{cancelled, no_show\} share a patient or share a psychiatrist on
the same date with overlapping `[start_time, end_time)` intervals.  The
store-level exclusion constraints, re-checked at every write, are what
guarantees this — including for status changes that reactivate a row. -/
theorem scheduling_invariant (ops : List Op) :
    (exec [] ops).Pairwise noOverlapPair := by
  have h := exec_preserves ops [] ⟨fun a ha => absurd ha (by simp),
    List.Pairwise.nil⟩
  exact h.2.imp (fun h => h.2)

/-! ### C9 — two racing creates -/

/-- The race invariant holds along every schedule: a request that has
succeeded has its row in the table, and two overlapping same-clinician
requests never both succeed — the INSERT of the second racer hits the
`unique_psychiatrist_time_slot` exclusion constraint against the row of
the first. -/
theorem raceExec_inv (r1 r2 : CreateReq)
    (hpsy : r1.psychiatrist_id = r2.psychiatrist_id)
    (hdate : r1.appointment_date = r2.appointment_date)
    (hv1 : (reqRow r1).start_time < (reqRow r1).end_time)
    (hv2 : (reqRow r2).start_time < (reqRow r2).end_time)
    (hov : overlaps (reqRow r1).start_time (reqRow r1).end_time
      (reqRow r2).start_time (reqRow r2).end_time)
    (sched : List Bool) (st : List Appt × ReqPhase × ReqPhase)
    (hinv : RaceInv r1 r2 st) : RaceInv r1 r2 (raceExec r1 r2 sched st) := by
  induction sched generalizing st with
  | nil => exact hinv
  | cons b rest ih =>
    obtain ⟨tbl, p1, p2⟩ := st
    obtain ⟨h1, h2, h12⟩ := hinv
    simp only [raceExec]
    cases b with
    | true =>
      simp only [if_true]
      apply ih
      cases p1 with
      | pending =>
        simp only [raceStep]
        cases hv : validateAppointmentData tbl r1.activePatients r1.now
            r1.patient_id r1.psychiatrist_id r1.appointment_date
            r1.start_time r1.duration_minutes with
        | some e =>
          exact ⟨fun h => by simp at h, h2, fun h => by simp at h⟩
        | none =>
          exact ⟨fun h => by simp at h, h2, fun h => by simp at h⟩
      | validated =>
        simp only [raceStep]
        by_cases hok : insertOk tbl (reqRow r1)
        · rw [if_pos hok]
          refine ⟨fun _ => List.mem_cons_self _ _,
            fun h => List.mem_cons_of_mem _ (h2 h), ?_⟩
          rintro ⟨-, hok2⟩
          have hmem := h2 hok2
          refine (hok.2.2.2 (reqRow r2) hmem).2 ?_
          refine ⟨by simp [reqRow, isActive], by simp [reqRow, isActive],
            ?_, ?_, hv2, hv1, hov.2, hov.1⟩
          · show (reqRow r2).psychiatrist_id = (reqRow r1).psychiatrist_id
            simp [reqRow, hpsy]
          · show (reqRow r2).appointment_date = (reqRow r1).appointment_date
            simp [reqRow, hdate]
        · rw [if_neg hok]
          exact ⟨fun h => by simp at h, h2, fun h => by simp at h⟩
      | ok =>
        simp only [raceStep]
        exact ⟨h1, h2, h12⟩
      | appError e =>
        simp only [raceStep]
        exact ⟨h1, h2, h12⟩
      | storeError =>
        simp only [raceStep]
        exact ⟨h1, h2, h12⟩
    | false =>
      simp only [Bool.false_eq_true, if_false]
      apply ih
      cases p2 with
      | pending =>
        simp only [raceStep]
        cases hv : validateAppointmentData tbl r2.activePatients r2.now
            r2.patient_id r2.psychiatrist_id r2.appointment_date
            r2.start_time r2.duration_minutes with
        | some e =>
          exact ⟨h1, fun h => by simp at h, fun h => by simp at h⟩
        | none =>
          exact ⟨h1, fun h => by simp at h, fun h => by simp at h⟩
      | validated =>
        simp only [raceStep]
        by_cases hok : insertOk tbl (reqRow r2)
        · rw [if_pos hok]
          refine ⟨fun h => List.mem_cons_of_mem _ (h1 h),
            fun _ => List.mem_cons_self _ _, ?_⟩
          rintro ⟨hok1, -⟩
          have hmem := h1 hok1
          refine (hok.2.2.2 (reqRow r1) hmem).2 ?_
          refine ⟨by simp [reqRow, isActive], by simp [reqRow, isActive],
            ?_, ?_, hv1, hv2, hov.1, hov.2⟩
          · show (reqRow r1).psychiatrist_id = (reqRow r2).psychiatrist_id
            simp [reqRow, hpsy]
          · show (reqRow r1).appointment_date = (reqRow r2).appointment_date
            simp [reqRow, hdate]
        · rw [if_neg hok]
          exact ⟨h1, fun h => by simp at h, fun h => by simp at h⟩
      | ok =>
        simp only [raceStep]
        exact ⟨h1, h2, h12⟩
      | appError e =>
        simp only [raceStep]
        exact ⟨h1, h2, h12⟩
      | storeError =>
        simp only [raceStep]
        exact ⟨h1, h2, h12⟩

/-- C9 counterexample: in the stale-read interleaving — both requests
validate against the empty table, then both attempt their INSERT — the
first racer succeeds and the second fails with the store-constraint
violation, which the route surfaces as a generic error, NOT with the
application-level psychiatrist-conflict error the claim requires; the
validation and the write demonstrably do not behave as one atomic unit. -/
theorem race_stale_read_cex :
    (raceRun exReq1 exReq2 [true, false, true, false]).2.1 = ReqPhase.ok ∧
    (raceRun exReq1 exReq2 [true, false, true, false]).2.2 =
      ReqPhase.storeError ∧
    ReqPhase.storeError ≠ ReqPhase.appError VError.psychiatristConflict := by
  exact ⟨by decide, by decide, by decide⟩

/-- C9 (amended): under every interleaving of two concurrent
`createAppointment` calls for the same psychiatrist on the same date with
overlapping nonempty intervals, at most one of them can finish
successfully — the database exclusion constraint arbitrates the race even
though validation and write are separate, non-transactional steps.  (The
loser reports the psychiatrist-conflict error only when its validation
ran after the winner's INSERT; in the stale-read interleaving it fails
with the store-constraint violation instead.) -/
theorem race_no_double_booking (r1 r2 : CreateReq) (sched : List Bool)
    (hpsy : r1.psychiatrist_id = r2.psychiatrist_id)
    (hdate : r1.appointment_date = r2.appointment_date)
    (hv1 : (reqRow r1).start_time < (reqRow r1).end_time)
    (hv2 : (reqRow r2).start_time < (reqRow r2).end_time)
    (hov : overlaps (reqRow r1).start_time (reqRow r1).end_time
      (reqRow r2).start_time (reqRow r2).end_time) :
    ¬ ((raceRun r1 r2 sched).2.1 = ReqPhase.ok ∧
       (raceRun r1 r2 sched).2.2 = ReqPhase.ok) := by
  have h := raceExec_inv r1 r2 hpsy hdate hv1 hv2 hov sched
    ([], ReqPhase.pending, ReqPhase.pending)
    ⟨fun h => by simp at h, fun h => by simp at h, fun h => by simp [h.1] at h⟩
  exact h.2.2

/-- Witness for C9: the two concrete racing requests in the stale-read
schedule do not both succeed. -/
theorem race_no_double_booking_witness :
    (exReq1.psychiatrist_id = exReq2.psychiatrist_id ∧
      (reqRow exReq1).start_time < (reqRow exReq1).end_time ∧
      (reqRow exReq2).start_time < (reqRow exReq2).end_time) ∧
    ¬ ((raceRun exReq1 exReq2 [true, false, true, false]).2.1 =
        ReqPhase.ok ∧
       (raceRun exReq1 exReq2 [true, false, true, false]).2.2 =
        ReqPhase.ok) :=
  ⟨⟨by decide, by decide, by decide⟩,
    race_no_double_booking exReq1 exReq2 [true, false, true, false]
      (by decide) (by decide) (by decide) (by decide) (by decide)⟩

end Psiquitra
